import Mathlib

/-!
Shallow embedding of `llvm/lib/Target/X86/InstPrinter/X86ATTInstPrinter.cpp`:
the AT&T-dialect instruction printer.  Output streams are modelled as token
lists, the comment sink as a list of comment records, and the `assert`-guarded
contract violations as `Except.error` carrying the assertion's diagnostic text.
External collaborators (the generated alias table, the generic per-opcode
template printer, the instruction-comment generator) are passed in as function
parameters, exactly as the printer receives them through virtual dispatch and
generated code.
-/

namespace X86ATT

/-- The access sizes denoted by the size-suffixed memory printers
(`printdwordmem`, `printqwordmem`, `printxmmwordmem`, `printymmwordmem`,
`printzmmwordmem`) that this file calls. -/
inductive MemSize where
  | word
  | dword
  | qword
  | xmmword
  | ymmword
  | zmmword
deriving DecidableEq

/-- An `MCOperand`: a tagged union over register id, 64-bit signed immediate,
and symbolic expression.  `invalid` stands for every other operand kind
(floating-point immediate, sub-instruction, ...), which this printer treats as
a contract violation. -/
inductive MCOperand where
  | reg (r : Nat)
  | imm (v : Int)
  | expr (e : String)
  | invalid
deriving DecidableEq

def MCOperand.isImm : MCOperand → Bool
  | .imm _ => true
  | _ => false

def MCOperand.isExpr : MCOperand → Bool
  | .expr _ => true
  | _ => false

def MCOperand.isReg : MCOperand → Bool
  | .reg _ => true
  | _ => false

/-- `MCOperand::getImm`; total here (callers only use it on immediates). -/
def MCOperand.getImm : MCOperand → Int
  | .imm v => v
  | _ => 0

/-- `MCOperand::getReg`; register id 0 is "no register".  Total here: a
non-register operand yields 0, and every call site in this file guards the
result against 0 before using it. -/
def MCOperand.getReg : MCOperand → Nat
  | .reg r => r
  | _ => 0

/-- The opcodes this file treats specially.  `vpcomVariant` indexes the 16
`X86::VPCOM*` enumerators of the first `switch` block of
`printVecCompareInstr` (Family A) and `vpcmpVariant` the 120 `X86::VPCMP*`
enumerators of its second block (Family B); the printer treats every member of
a family identically, so the variants are indexed rather than each named.
`DATA16` models `X86::DATA16_PREFIX`.  `other` covers the rest of the opcode
enum. -/
inductive Opcode where
  | CALLpcrel32
  | DATA16
  | vpcomVariant (i : Fin 16)
  | vpcmpVariant (i : Fin 120)
  | other (n : Nat)
deriving DecidableEq

/-- An `MCInst`: opcode plus ordered operand list. -/
structure MCInst where
  opcode : Opcode
  operands : List MCOperand
deriving DecidableEq

def MCInst.getNumOperands (MI : MCInst) : Nat := MI.operands.length

/-- `MCInst::getOperand`; an out-of-range index yields the invalid operand. -/
def MCInst.getOperand (MI : MCInst) (i : Nat) : MCOperand :=
  MI.operands.getD i .invalid

/-- The descriptor bits of `MCInstrDesc::TSFlags` that `printVecCompareInstr`
tests (the bit layout lives in `X86BaseInfo.h`, outside this file; each field
models one of the tests made by the source).  `formMemSrc` is
`(TSFlags & X86II::FormMask) == X86II::MRMSrcMem`. -/
structure MCInstrDesc where
  formMemSrc : Bool
  evex_K : Bool
  evex_B : Bool
  evex_L2 : Bool
  vex_L : Bool
  vex_W : Bool
deriving DecidableEq

/-- The printer's per-object state: whether a comment sink is attached
(`CommentStream`), the `HasCustomInstComment` flag, the immediate format mode
(`PrintImmHex`) and the markup mode (`UseMarkup`) of the base class. -/
structure PrinterState where
  hasCommentStream : Bool
  hasCustomInstComment : Bool
  printImmHex : Bool
  useMarkup : Bool
deriving DecidableEq

/-- One syntactic unit written to the output stream.  `dec` is a number
rendered as plain decimal, `hex` as hexadecimal; `sizeTag` records which
size-suffixed memory printer rendered the following memory reference;
`mnemVPCOM v` / `mnemVPCMP v` record the polymorphic mnemonic chosen from the
trailing immediate `v`; `pcrel i` is the output of `printPCRelImm` on operand
`i`; `annot s` is the trailing annotation text. -/
inductive Tok where
  | lit (s : String)
  | reg (r : Nat)
  | dec (v : Int)
  | hex (v : Int)
  | expr (e : String)
  | sizeTag (sz : MemSize)
  | mnemVPCOM (v : Int)
  | mnemVPCMP (v : Int)
  | pcrel (i : Nat)
  | annot (s : String)
deriving DecidableEq

/-- One line written to the comment sink: either the generic hex-immediate
annotation `imm = 0x...` (recording the chosen hex width and the truncated
unsigned value), or an opaque opcode-specific comment line produced by
`EmitAnyX86InstComments`. -/
inductive Comment where
  | immHex (width : Nat) (value : Int)
  | custom (id : Nat)
deriving DecidableEq

/-- Output of one printing routine: text tokens plus comment-sink lines. -/
abbrev Out := List Tok × List Comment

/-- `MCInstPrinter::markup`: wraps syntax markers, emitted only when markup
mode is on (otherwise the marker string is empty). -/
def markup (st : PrinterState) (s : String) : List Tok :=
  if st.useMarkup then [Tok.lit s] else []

/-- Modelled from the spec: `formatImm` (the base-class numeric formatter,
declared outside this file) renders a value as signed decimal, or as
hexadecimal when the hex format mode is configured. -/
def formatImm (st : PrinterState) (v : Int) : Tok :=
  if st.printImmHex then Tok.hex v else Tok.dec v

/-- Sign extension from the low `w` bits, i.e. the value of `(intw_t)v`. -/
def signExtend (w : Nat) (v : Int) : Int :=
  (v + 2 ^ (w - 1)) % 2 ^ w - 2 ^ (w - 1)

/-- Truncation to the low `w` bits, i.e. the value of `(uintw_t)v`. -/
def toUnsigned (w : Nat) (v : Int) : Int := v % 2 ^ w

/-- The comment lines `printOperand` adds for an immediate `v`: when a comment
sink is attached, no opcode-specific comment was emitted, and `v` is outside
`[-256, 255]`, one `imm = 0x...` line whose width is 16 if `v == (int16_t)v`,
else 32 if `v == (int32_t)v`, else 64, printed as the correspondingly
truncated unsigned value. -/
def immCmts (st : PrinterState) (v : Int) : List Comment :=
  if st.hasCommentStream = true ∧ st.hasCustomInstComment = false ∧ (v > 255 ∨ v < -256) then
    if signExtend 16 v = v then [Comment.immHex 16 (toUnsigned 16 v)]
    else if signExtend 32 v = v then [Comment.immHex 32 (toUnsigned 32 v)]
    else [Comment.immHex 64 (toUnsigned 64 v)]
  else []

/-- `printRegName`: percent sign plus the architectural register name (the
name table itself is generated; the token records the register id). -/
def printRegName (st : PrinterState) (r : Nat) : List Tok :=
  markup st "<reg:" ++ [Tok.lit "%", Tok.reg r] ++ markup st ">"

/-- `printOperand`: register, immediate (signed, with the optional hex
comment), or symbolic expression; any other operand kind trips
`assert(Op.isExpr() && "unknown operand kind in printOperand")`. -/
def printOperand (st : PrinterState) (MI : MCInst) (opNo : Nat) : Except String Out :=
  match MI.getOperand opNo with
  | .reg r => .ok (printRegName st r, [])
  | .imm v =>
      .ok (markup st "<imm:" ++ [Tok.lit "$", formatImm st v] ++ markup st ">", immCmts st v)
  | .expr e =>
      .ok (markup st "<imm:" ++ [Tok.lit "$", Tok.expr e] ++ markup st ">", [])
  | .invalid => .error "unknown operand kind in printOperand"

/-- Memory sub-operand offsets (`X86::AddrBaseReg` etc., defined in
`X86BaseInfo.h` outside this file; the spec fixes base at +0, scale at +1,
index at +2, displacement at +3, segment at +4). -/
def addrBaseReg : Nat := 0

def addrScaleAmt : Nat := 1

def addrIndexReg : Nat := 2

def addrDisp : Nat := 3

def addrSegReg : Nat := 4

/-- Modelled from the spec: `printOptionalSegReg` (defined in the common
printer file, not under src/) prints the segment sub-operand followed by a
colon when it names a real (nonzero) register. -/
def segToks (st : PrinterState) (MI : MCInst) (opNo : Nat) : List Tok :=
  if (MI.getOperand opNo).getReg ≠ 0 then
    printRegName st (MI.getOperand opNo).getReg ++ [Tok.lit ":"]
  else []

/-- `printMemReference`: optional segment, displacement (printed when nonzero
or when both base and index are absent; a non-immediate non-expression
displacement trips `assert(DispSpec.isExpr() && "non-immediate displacement
for LEA?")`), then the parenthesised base/index/scale part, the scale only
when it is not 1 and always in plain decimal. -/
def printMemReference (st : PrinterState) (MI : MCInst) (op : Nat) : Except String Out := do
  let baseReg := MI.getOperand (op + addrBaseReg)
  let indexReg := MI.getOperand (op + addrIndexReg)
  let dispSpec := MI.getOperand (op + addrDisp)
  let seg := segToks st MI (op + addrSegReg)
  let dispT : List Tok ←
    match dispSpec with
    | .imm dv =>
        pure (if dv ≠ 0 ∨ (indexReg.getReg = 0 ∧ baseReg.getReg = 0)
              then [formatImm st dv] else [])
    | .expr e => pure [Tok.expr e]
    | _ => .error "non-immediate displacement for LEA?"
  let regPart : Out ←
    if indexReg.getReg ≠ 0 ∨ baseReg.getReg ≠ 0 then do
      let basePart : Out ←
        if baseReg.getReg ≠ 0 then printOperand st MI (op + addrBaseReg)
        else pure ([], [])
      let idxPart : Out ←
        if indexReg.getReg ≠ 0 then do
          let ip ← printOperand st MI (op + addrIndexReg)
          let scaleVal : Int := (MI.getOperand (op + addrScaleAmt)).getImm % 2 ^ 32
          pure ((Tok.lit "," :: ip.1
                  ++ (if scaleVal ≠ 1 then
                        Tok.lit "," :: markup st "<imm:" ++ [Tok.dec scaleVal] ++ markup st ">"
                      else []), ip.2) : Out)
        else pure (([], []) : Out)
      pure ((Tok.lit "(" :: (basePart.1 ++ idxPart.1) ++ [Tok.lit ")"],
             basePart.2 ++ idxPart.2) : Out)
    else pure (([], []) : Out)
  pure (markup st "<mem:" ++ seg ++ dispT ++ regPart.1 ++ markup st ">", regPart.2)

/-- Modelled from the spec and the call-site names: the size-suffixed memory
printers (declared in `X86ATTInstPrinter.h`, not under src/) render the memory
reference at the operand index with the access size their name denotes. -/
def printSizedMem (sz : MemSize) (st : PrinterState) (MI : MCInst) (op : Nat) :
    Except String Out := do
  let m ← printMemReference st MI op
  pure (Tok.sizeTag sz :: m.1, m.2)

def printdwordmem : PrinterState → MCInst → Nat → Except String Out :=
  printSizedMem MemSize.dword

def printqwordmem : PrinterState → MCInst → Nat → Except String Out :=
  printSizedMem MemSize.qword

def printxmmwordmem : PrinterState → MCInst → Nat → Except String Out :=
  printSizedMem MemSize.xmmword

def printymmwordmem : PrinterState → MCInst → Nat → Except String Out :=
  printSizedMem MemSize.ymmword

def printzmmwordmem : PrinterState → MCInst → Nat → Except String Out :=
  printSizedMem MemSize.zmmword

/-- `printSrcIdx`: optional real segment at the next operand index, then the
single base-like operand in parentheses. -/
def printSrcIdx (st : PrinterState) (MI : MCInst) (op : Nat) : Except String Out := do
  let o ← printOperand st MI op
  pure (markup st "<mem:" ++ segToks st MI (op + 1) ++ (Tok.lit "(" :: o.1)
          ++ [Tok.lit ")"] ++ markup st ">", o.2)

/-- `printDstIdx`: the fixed extra-segment name `%es:` (no segment sub-operand
is read), then the single base-like operand in parentheses. -/
def printDstIdx (st : PrinterState) (MI : MCInst) (op : Nat) : Except String Out := do
  let o ← printOperand st MI op
  pure (markup st "<mem:" ++ (Tok.lit "%es:(" :: o.1) ++ [Tok.lit ")"]
          ++ markup st ">", o.2)

/-- `printU8Imm`: a symbolic expression defers to `printOperand` unchanged;
otherwise the immediate is masked to its low 8 bits (`getImm() & 0xff`,
i.e. reduction mod 256) before formatting.  No comment is emitted here. -/
def printU8Imm (st : PrinterState) (MI : MCInst) (op : Nat) : Except String Out :=
  if (MI.getOperand op).isExpr then printOperand st MI op
  else
    .ok (markup st "<imm:" ++ [Tok.lit "$", formatImm st ((MI.getOperand op).getImm % 256)]
           ++ markup st ">", [])

/-- Modelled from the spec: `printVPCOMMnemonic` (defined in the common
printer file, not under src/) maps the trailing immediate to the Family A
mnemonic suffix; the token records that lookup key. -/
def printVPCOMMnemonic (MI : MCInst) : List Tok :=
  [Tok.mnemVPCOM (MI.getOperand (MI.getNumOperands - 1)).getImm]

/-- Modelled from the spec: `printVPCMPMnemonic` (defined in the common
printer file, not under src/) maps the trailing immediate to the Family B
mnemonic suffix; the token records that lookup key. -/
def printVPCMPMnemonic (MI : MCInst) : List Tok :=
  [Tok.mnemVPCMP (MI.getOperand (MI.getNumOperands - 1)).getImm]

/-- `printVecCompareInstr`: the polymorphic vector-compare resolver.  Declines
(`.ok none`, the C++ `return false`) when there are no operands, the trailing
operand is not an immediate, the opcode is in neither family, or the trailing
immediate is outside the family's legal range; otherwise prints the custom
form and reports handled (`.ok (some _)`, the C++ `return true`). -/
def printVecCompareInstr (st : PrinterState) (MII : Opcode → MCInstrDesc) (MI : MCInst) :
    Except String (Option Out) :=
  if MI.getNumOperands = 0 ∨ ¬(MI.getOperand (MI.getNumOperands - 1)).isImm = true then
    .ok none
  else
    let imm := (MI.getOperand (MI.getNumOperands - 1)).getImm
    let desc := MII MI.opcode
    match MI.opcode with
    | .vpcomVariant _ =>
        if 0 ≤ imm ∧ imm ≤ 7 then do
          let src : Out ←
            if desc.formMemSrc = true then printxmmwordmem st MI 2
            else printOperand st MI 2
          let o1 ← printOperand st MI 1
          let o0 ← printOperand st MI 0
          pure (some ((Tok.lit "\t" :: printVPCOMMnemonic MI ++ src.1)
                        ++ (Tok.lit ", " :: o1.1) ++ (Tok.lit ", " :: o0.1),
                      src.2 ++ o1.2 ++ o0.2))
        else .ok none
    | .vpcmpVariant _ =>
        if (0 ≤ imm ∧ imm ≤ 2) ∨ (4 ≤ imm ∧ imm ≤ 6) then do
          let c0 : Nat := if desc.evex_K = true then 3 else 2
          let src : Out ←
            if desc.formMemSrc = true then
              if desc.evex_B = true then do
                -- Broadcast form; load size is based on the W bit.
                let m : Out ←
                  if desc.vex_W = true then printqwordmem st MI c0
                  else printdwordmem st MI c0
                let numElts : Int :=
                  if desc.evex_L2 = true then (if desc.vex_W = true then 8 else 16)
                  else if desc.vex_L = true then (if desc.vex_W = true then 4 else 8)
                  else (if desc.vex_W = true then 2 else 4)
                pure ((m.1 ++ [Tok.lit "\x7b1to", Tok.dec numElts, Tok.lit "\x7d"], m.2) : Out)
              else
                if desc.evex_L2 = true then printzmmwordmem st MI c0
                else if desc.vex_L = true then printymmwordmem st MI c0
                else printxmmwordmem st MI c0
            else printOperand st MI c0
          let c1 : Nat := c0 - 1
          let o1 ← printOperand st MI c1
          let c2 : Nat := c1 - 1
          let o0 ← printOperand st MI 0
          let mask : Out ←
            if 0 < c2 then do
              let m ← printOperand st MI c2
              pure ((Tok.lit " \x7b" :: m.1 ++ [Tok.lit "\x7d"], m.2) : Out)
            else pure (([], []) : Out)
          pure (some ((Tok.lit "\t" :: printVPCMPMnemonic MI ++ src.1)
                        ++ (Tok.lit ", " :: o1.1) ++ (Tok.lit ", " :: o0.1) ++ mask.1,
                      src.2 ++ o1.2 ++ o0.2 ++ mask.2))
        else .ok none
    | _ => .ok none

/-- Result of one `printInst` call: the text written to the output stream, the
lines written to the comment sink, and the printer state after the call. -/
structure PrintInstOut where
  toks : List Tok
  cmts : List Comment
  finalState : PrinterState
deriving DecidableEq

/-- Modelled from the spec: `printAnnotation` (base class, not under src/)
prints the caller-supplied trailing annotation text. -/
def annotToks (s : String) : List Tok := [Tok.annot s]

/-- `printInst`, the top-level print driver.  `emitC` is
`EmitAnyX86InstComments` (returns the new `HasCustomInstComment` value and the
comment lines it wrote), `instFlagsT` is `printInstFlags`, `aliasP` is the
generated `printAliasInstr` (`none` when no alias matched), `genericP` the
generated `printInstruction`, `m64`/`m16` the `Mode64Bit`/`Mode16Bit` feature
bits of the subtarget. -/
def printInst (st : PrinterState) (MII : Opcode → MCInstrDesc)
    (emitC : MCInst → Bool × List Comment)
    (instFlagsT : MCInst → List Tok)
    (aliasP : MCInst → Option (List Tok))
    (genericP : MCInst → List Tok)
    (MI : MCInst) (annotStr : String) (m64 m16 : Bool) :
    Except String PrintInstOut :=
  let ec := if st.hasCommentStream then emitC MI else (st.hasCustomInstComment, [])
  let st1 : PrinterState := { st with hasCustomInstComment := ec.1 }
  let flagsT := instFlagsT MI
  if MI.opcode = Opcode.CALLpcrel32 ∧ m64 = true then
    .ok ⟨flagsT ++ [Tok.lit "\tcallq\t", Tok.pcrel 0] ++ annotToks annotStr, ec.2, st1⟩
  else if MI.opcode = Opcode.DATA16 ∧ m16 = true then
    .ok ⟨flagsT ++ [Tok.lit "\tdata32"] ++ annotToks annotStr, ec.2, st1⟩
  else
    match aliasP MI with
    | some t => .ok ⟨flagsT ++ t ++ annotToks annotStr, ec.2, st1⟩
    | none =>
        match printVecCompareInstr st1 MII MI with
        | .error e => .error e
        | .ok (some o) => .ok ⟨flagsT ++ o.1 ++ annotToks annotStr, ec.2 ++ o.2, st1⟩
        | .ok none => .ok ⟨flagsT ++ genericP MI ++ annotToks annotStr, ec.2, st1⟩

/-! Helper lemmas: total mirrors of the printers on well-formed input, and
arithmetic facts about sign extension. -/

/-- The success output of `printOperand` as a total function. -/
def opOut (st : PrinterState) (MI : MCInst) (i : Nat) : Out :=
  match MI.getOperand i with
  | .reg r => (printRegName st r, [])
  | .imm v =>
      (markup st "<imm:" ++ [Tok.lit "$", formatImm st v] ++ markup st ">", immCmts st v)
  | .expr e =>
      (markup st "<imm:" ++ [Tok.lit "$", Tok.expr e] ++ markup st ">", [])
  | .invalid => ([], [])

theorem printOperand_eq_ok (st : PrinterState) (MI : MCInst) (i : Nat)
    (h : MI.getOperand i ≠ MCOperand.invalid) :
    printOperand st MI i = .ok (opOut st MI i) := by
  unfold printOperand opOut
  cases hc : MI.getOperand i <;> simp_all

theorem getReg_ne (o : MCOperand) (h : o.getReg ≠ 0) : o = .reg o.getReg := by
  cases o <;> simp_all [MCOperand.getReg]

/-- The success output of `printMemReference` as a total function. -/
def memRefOut (st : PrinterState) (MI : MCInst) (op : Nat) : Out :=
  let baseReg := MI.getOperand (op + addrBaseReg)
  let indexReg := MI.getOperand (op + addrIndexReg)
  let dispT : List Tok :=
    match MI.getOperand (op + addrDisp) with
    | .imm dv =>
        if dv ≠ 0 ∨ (indexReg.getReg = 0 ∧ baseReg.getReg = 0)
        then [formatImm st dv] else []
    | .expr e => [Tok.expr e]
    | _ => []
  let baseT : List Tok := if baseReg.getReg ≠ 0 then printRegName st baseReg.getReg else []
  let scaleVal : Int := (MI.getOperand (op + addrScaleAmt)).getImm % 2 ^ 32
  let idxT : List Tok :=
    if indexReg.getReg ≠ 0 then
      Tok.lit "," :: printRegName st indexReg.getReg
        ++ (if scaleVal ≠ 1 then
              Tok.lit "," :: markup st "<imm:" ++ [Tok.dec scaleVal] ++ markup st ">"
            else [])
    else []
  let regT : List Tok :=
    if indexReg.getReg ≠ 0 ∨ baseReg.getReg ≠ 0
    then Tok.lit "(" :: (baseT ++ idxT) ++ [Tok.lit ")"] else []
  (markup st "<mem:" ++ segToks st MI (op + addrSegReg) ++ dispT ++ regT ++ markup st ">", [])

theorem printMemReference_eq_ok (st : PrinterState) (MI : MCInst) (op : Nat)
    (h : (MI.getOperand (op + addrDisp)).isImm = true ∨
         (MI.getOperand (op + addrDisp)).isExpr = true) :
    printMemReference st MI op = .ok (memRefOut st MI op) := by
  simp only [printMemReference, memRefOut, printOperand]
  generalize MI.getOperand (op + addrBaseReg) = b at *
  generalize MI.getOperand (op + addrIndexReg) = ix at *
  generalize MI.getOperand (op + addrDisp) = d at *
  generalize (MI.getOperand (op + addrScaleAmt)).getImm = sv at *
  cases b <;> cases ix <;> cases d <;>
    simp_all [MCOperand.getReg, MCOperand.isImm, MCOperand.isExpr,
      bind, Except.bind, pure, Except.pure] <;>
    split_ifs <;> simp_all

theorem signExtend_eq_iff (w : Nat) (v : Int) (hw : 1 ≤ w) :
    signExtend w v = v ↔ -(2 ^ (w - 1)) ≤ v ∧ v < 2 ^ (w - 1) := by
  have hpow : (2 : Int) ^ w = 2 ^ (w - 1) * 2 := by
    rw [← pow_succ]
    congr 1
    omega
  have hp : (0 : Int) < 2 ^ (w - 1) := by positivity
  unfold signExtend
  constructor
  · intro h
    have hmod : (v + 2 ^ (w - 1)) % 2 ^ w = v + 2 ^ (w - 1) := by omega
    have hnn : 0 ≤ (v + 2 ^ (w - 1)) % 2 ^ w :=
      Int.emod_nonneg _ (by positivity)
    have hlt : (v + 2 ^ (w - 1)) % 2 ^ w < 2 ^ w :=
      Int.emod_lt_of_pos _ (by positivity)
    omega
  · intro h
    have hmod : (v + 2 ^ (w - 1)) % 2 ^ w = v + 2 ^ (w - 1) :=
      Int.emod_eq_of_lt (by omega) (by omega)
    omega

/-- Well-formedness of the operands a handled Family A instruction prints:
everything `printVecCompareInstr` touches in the `VPCOM` branch succeeds. -/
def vpcomArgsOk (desc : MCInstrDesc) (MI : MCInst) : Prop :=
  (if desc.formMemSrc = true then
     (MI.getOperand (2 + addrDisp)).isImm = true ∨ (MI.getOperand (2 + addrDisp)).isExpr = true
   else MI.getOperand 2 ≠ MCOperand.invalid)
  ∧ MI.getOperand 1 ≠ MCOperand.invalid
  ∧ MI.getOperand 0 ≠ MCOperand.invalid

/-- Well-formedness of the operands a handled Family B instruction prints:
everything `printVecCompareInstr` touches in the `VPCMP` branch succeeds. -/
def vpcmpArgsOk (desc : MCInstrDesc) (MI : MCInst) : Prop :=
  (if desc.formMemSrc = true then
     (MI.getOperand ((if desc.evex_K = true then 3 else 2) + addrDisp)).isImm = true ∨
       (MI.getOperand ((if desc.evex_K = true then 3 else 2) + addrDisp)).isExpr = true
   else MI.getOperand (if desc.evex_K = true then 3 else 2) ≠ MCOperand.invalid)
  ∧ MI.getOperand ((if desc.evex_K = true then 3 else 2) - 1) ≠ MCOperand.invalid
  ∧ MI.getOperand 0 ≠ MCOperand.invalid
  ∧ (desc.evex_K = true → MI.getOperand 1 ≠ MCOperand.invalid)

/-- The source operand part of a handled Family B instruction, as a total
function: broadcast form (size from the W bit, then the `{1to<N>}` count from
L2/L/W), plain memory form (vector width from L2/L), or a plain operand. -/
def vpcmpSrcOut (st : PrinterState) (desc : MCInstrDesc) (MI : MCInst) : Out :=
  let c0 : Nat := if desc.evex_K = true then 3 else 2
  if desc.formMemSrc = true then
    if desc.evex_B = true then
      ((Tok.sizeTag (if desc.vex_W = true then MemSize.qword else MemSize.dword)
          :: (memRefOut st MI c0).1)
        ++ [Tok.lit "\x7b1to",
            Tok.dec (if desc.evex_L2 = true then (if desc.vex_W = true then 8 else 16)
                     else if desc.vex_L = true then (if desc.vex_W = true then 4 else 8)
                     else (if desc.vex_W = true then 2 else 4)),
            Tok.lit "\x7d"],
       (memRefOut st MI c0).2)
    else
      (Tok.sizeTag (if desc.evex_L2 = true then MemSize.zmmword
                    else if desc.vex_L = true then MemSize.ymmword
                    else MemSize.xmmword) :: (memRefOut st MI c0).1,
       (memRefOut st MI c0).2)
  else opOut st MI c0

/-- The full output of a handled Family B instruction, as a total function.
The operand cursor starts at 3 when the mask flag is set (else 2), the source
is printed at the cursor, the second operand one below it, then operand 0, and
the brace-wrapped mask operand follows exactly when the cursor has an
unconsumed index left. -/
def vpcmpOut (st : PrinterState) (desc : MCInstrDesc) (MI : MCInst) (v : Int) : Out :=
  let c0 : Nat := if desc.evex_K = true then 3 else 2
  let src := vpcmpSrcOut st desc MI
  let o1 := opOut st MI (c0 - 1)
  let o0 := opOut st MI 0
  let mask : Out :=
    if 0 < c0 - 1 - 1 then
      (Tok.lit " \x7b" :: (opOut st MI (c0 - 1 - 1)).1 ++ [Tok.lit "\x7d"],
       (opOut st MI (c0 - 1 - 1)).2)
    else ([], [])
  ((Tok.lit "\t" :: Tok.mnemVPCMP v :: src.1)
     ++ (Tok.lit ", " :: o1.1) ++ (Tok.lit ", " :: o0.1) ++ mask.1,
   src.2 ++ o1.2 ++ o0.2 ++ mask.2)

theorem printSizedMem_eq_ok (sz : MemSize) (st : PrinterState) (MI : MCInst) (op : Nat)
    (h : (MI.getOperand (op + addrDisp)).isImm = true ∨
         (MI.getOperand (op + addrDisp)).isExpr = true) :
    printSizedMem sz st MI op =
      .ok (Tok.sizeTag sz :: (memRefOut st MI op).1, (memRefOut st MI op).2) := by
  unfold printSizedMem
  rw [printMemReference_eq_ok st MI op h]
  rfl

theorem vpcmp_shape (st : PrinterState) (MII : Opcode → MCInstrDesc) (MI : MCInst)
    (j : Fin 120) (v : Int)
    (hop : MI.opcode = Opcode.vpcmpVariant j)
    (hne : MI.operands ≠ [])
    (hlast : MI.getOperand (MI.getNumOperands - 1) = MCOperand.imm v)
    (hleg : (0 ≤ v ∧ v ≤ 2) ∨ (4 ≤ v ∧ v ≤ 6))
    (hargs : vpcmpArgsOk (MII MI.opcode) MI) :
    printVecCompareInstr st MII MI = .ok (some (vpcmpOut st (MII MI.opcode) MI v)) := by
  obtain ⟨hsrc, h1, h0, hm⟩ := hargs
  have hn0 : ¬MI.getNumOperands = 0 := by
    simpa [MCInst.getNumOperands] using hne
  unfold printVecCompareInstr
  rw [if_neg (by simp [hn0, hlast, MCOperand.isImm])]
  rw [hop] at hsrc h1 hm ⊢
  simp only [hlast, MCOperand.getImm]
  rw [if_pos hleg]
  rcases hK : (MII (Opcode.vpcmpVariant j)).evex_K <;> rw [hK] at hsrc h1 hm <;>
    simp only [Bool.false_eq_true, if_false, if_true, reduceIte, Nat.reduceSub] at hsrc h1 hm ⊢ <;>
  rcases hF : (MII (Opcode.vpcmpVariant j)).formMemSrc <;> rw [hF] at hsrc <;>
    simp only [Bool.false_eq_true, if_false, if_true, reduceIte] at hsrc ⊢
  · -- K=false, reg form
    rw [printOperand_eq_ok st MI 2 hsrc, printOperand_eq_ok st MI 1 h1,
        printOperand_eq_ok st MI 0 h0]
    simp [vpcmpOut, vpcmpSrcOut, hK, hF, bind, Except.bind, pure, Except.pure,
      printVPCMPMnemonic, hlast, MCOperand.getImm]
  · -- K=false, mem form
    rcases hB : (MII (Opcode.vpcmpVariant j)).evex_B
    · rcases hL2 : (MII (Opcode.vpcmpVariant j)).evex_L2 <;>
      [rcases hL : (MII (Opcode.vpcmpVariant j)).vex_L; skip] <;>
        simp_all [vpcmpOut, vpcmpSrcOut, printzmmwordmem, printymmwordmem, printxmmwordmem,
          printSizedMem_eq_ok, printOperand_eq_ok, bind, Except.bind, pure, Except.pure,
          printVPCMPMnemonic, hlast, MCOperand.getImm]
    · rcases hW : (MII (Opcode.vpcmpVariant j)).vex_W <;>
        simp_all [vpcmpOut, vpcmpSrcOut, printqwordmem, printdwordmem,
          printSizedMem_eq_ok, printOperand_eq_ok, bind, Except.bind, pure, Except.pure,
          printVPCMPMnemonic, hlast, MCOperand.getImm]
  · -- K=true, reg form
    rw [printOperand_eq_ok st MI 3 hsrc, printOperand_eq_ok st MI 2 h1,
        printOperand_eq_ok st MI 0 h0, printOperand_eq_ok st MI 1 (hm trivial)]
    simp [vpcmpOut, vpcmpSrcOut, hK, hF, bind, Except.bind, pure, Except.pure,
      printVPCMPMnemonic, hlast, MCOperand.getImm]
  · -- K=true, mem form
    have hm1 := hm trivial
    rcases hB : (MII (Opcode.vpcmpVariant j)).evex_B
    · rcases hL2 : (MII (Opcode.vpcmpVariant j)).evex_L2 <;>
      [rcases hL : (MII (Opcode.vpcmpVariant j)).vex_L; skip] <;>
        simp_all [vpcmpOut, vpcmpSrcOut, printzmmwordmem, printymmwordmem, printxmmwordmem,
          printSizedMem_eq_ok, printOperand_eq_ok, bind, Except.bind, pure, Except.pure,
          printVPCMPMnemonic, hlast, MCOperand.getImm]
    · rcases hW : (MII (Opcode.vpcmpVariant j)).vex_W <;>
        simp_all [vpcmpOut, vpcmpSrcOut, printqwordmem, printdwordmem,
          printSizedMem_eq_ok, printOperand_eq_ok, bind, Except.bind, pure, Except.pure,
          printVPCMPMnemonic, hlast, MCOperand.getImm]

theorem vpcom_not_handled (st : PrinterState) (MII : Opcode → MCInstrDesc) (MI : MCInst)
    (i : Fin 16) (hop : MI.opcode = Opcode.vpcomVariant i)
    (h : ∀ v : Int, MI.getOperand (MI.getNumOperands - 1) = MCOperand.imm v →
          ¬(0 ≤ v ∧ v ≤ 7)) :
    printVecCompareInstr st MII MI = .ok none := by
  unfold printVecCompareInstr
  by_cases hg : MI.getNumOperands = 0 ∨ ¬(MI.getOperand (MI.getNumOperands - 1)).isImm = true
  · rw [if_pos hg]
  · rw [if_neg hg, hop]
    push_neg at hg
    rcases hv : MI.getOperand (MI.getNumOperands - 1) with r | v | e | _ <;>
      rw [hv] at hg <;> simp only [MCOperand.isImm] at hg <;>
      [exact absurd hg.2 (by simp); skip; exact absurd hg.2 (by simp);
       exact absurd hg.2 (by simp)]
    simp only [hv, MCOperand.getImm]
    rw [if_neg (h v hv)]

theorem vpcmp_not_handled (st : PrinterState) (MII : Opcode → MCInstrDesc) (MI : MCInst)
    (j : Fin 120) (hop : MI.opcode = Opcode.vpcmpVariant j)
    (h : ∀ v : Int, MI.getOperand (MI.getNumOperands - 1) = MCOperand.imm v →
          ¬((0 ≤ v ∧ v ≤ 2) ∨ (4 ≤ v ∧ v ≤ 6))) :
    printVecCompareInstr st MII MI = .ok none := by
  unfold printVecCompareInstr
  by_cases hg : MI.getNumOperands = 0 ∨ ¬(MI.getOperand (MI.getNumOperands - 1)).isImm = true
  · rw [if_pos hg]
  · rw [if_neg hg, hop]
    push_neg at hg
    rcases hv : MI.getOperand (MI.getNumOperands - 1) with r | v | e | _ <;>
      rw [hv] at hg <;> simp only [MCOperand.isImm] at hg <;>
      [exact absurd hg.2 (by simp); skip; exact absurd hg.2 (by simp);
       exact absurd hg.2 (by simp)]
    simp only [hv, MCOperand.getImm]
    rw [if_neg (h v hv)]

theorem vpcom_handled (st : PrinterState) (MII : Opcode → MCInstrDesc) (MI : MCInst)
    (i : Fin 16) (v : Int)
    (hop : MI.opcode = Opcode.vpcomVariant i)
    (hne : MI.operands ≠ [])
    (hlast : MI.getOperand (MI.getNumOperands - 1) = MCOperand.imm v)
    (hleg : 0 ≤ v ∧ v ≤ 7)
    (hargs : vpcomArgsOk (MII MI.opcode) MI) :
    ∃ o, printVecCompareInstr st MII MI = .ok (some o) := by
  obtain ⟨hsrc, h1, h0⟩ := hargs
  have hn0 : ¬MI.getNumOperands = 0 := by
    simpa [MCInst.getNumOperands] using hne
  unfold printVecCompareInstr
  rw [if_neg (by simp [hn0, hlast, MCOperand.isImm])]
  rw [hop] at hsrc ⊢
  simp only [hlast, MCOperand.getImm]
  rw [if_pos hleg]
  rcases hF : (MII (Opcode.vpcomVariant i)).formMemSrc <;> rw [hF] at hsrc <;>
    simp only [Bool.false_eq_true, if_false, if_true, reduceIte] at hsrc ⊢
  · rw [printOperand_eq_ok st MI 2 hsrc, printOperand_eq_ok st MI 1 h1,
        printOperand_eq_ok st MI 0 h0]
    exact ⟨_, rfl⟩
  · show ∃ o, (printxmmwordmem st MI 2 >>= _) = .ok (some o)
    rw [show printxmmwordmem st MI 2 = printSizedMem MemSize.xmmword st MI 2 from rfl,
        printSizedMem_eq_ok MemSize.xmmword st MI 2 hsrc]
    rw [printOperand_eq_ok st MI 1 h1, printOperand_eq_ok st MI 0 h0]
    exact ⟨_, rfl⟩

/-! Flag independence: when no comment sink is attached, nothing the printer
emits reads the `HasCustomInstComment` flag. -/

/-- The printer state with only the `HasCustomInstComment` flag replaced. -/
def setFlag (st : PrinterState) (b : Bool) : PrinterState :=
  { st with hasCustomInstComment := b }

theorem immCmts_setFlag (st : PrinterState) (b : Bool) (v : Int)
    (h : st.hasCommentStream = false) :
    immCmts (setFlag st b) v = immCmts st v := by
  unfold immCmts setFlag
  simp [h]

theorem markup_setFlag (st : PrinterState) (b : Bool) (s : String) :
    markup (setFlag st b) s = markup st s := rfl

theorem formatImm_setFlag (st : PrinterState) (b : Bool) (v : Int) :
    formatImm (setFlag st b) v = formatImm st v := rfl

theorem printRegName_setFlag (st : PrinterState) (b : Bool) (r : Nat) :
    printRegName (setFlag st b) r = printRegName st r := rfl

theorem printOperand_setFlag (st : PrinterState) (b : Bool) (MI : MCInst) (i : Nat)
    (h : st.hasCommentStream = false) :
    printOperand (setFlag st b) MI i = printOperand st MI i := by
  unfold printOperand
  cases MI.getOperand i <;>
    simp [markup_setFlag, formatImm_setFlag, printRegName_setFlag,
      immCmts_setFlag st b _ h]

theorem printMemReference_setFlag (st : PrinterState) (b : Bool) (MI : MCInst) (op : Nat)
    (h : st.hasCommentStream = false) :
    printMemReference (setFlag st b) MI op = printMemReference st MI op := by
  unfold printMemReference
  simp only [printOperand_setFlag st b MI _ h]
  rfl

theorem printSizedMem_setFlag (sz : MemSize) (st : PrinterState) (b : Bool)
    (MI : MCInst) (op : Nat) (h : st.hasCommentStream = false) :
    printSizedMem sz (setFlag st b) MI op = printSizedMem sz st MI op := by
  unfold printSizedMem
  rw [printMemReference_setFlag st b MI op h]

theorem printVecCompareInstr_setFlag (st : PrinterState) (b : Bool)
    (MII : Opcode → MCInstrDesc) (MI : MCInst) (h : st.hasCommentStream = false) :
    printVecCompareInstr (setFlag st b) MII MI = printVecCompareInstr st MII MI := by
  unfold printVecCompareInstr
  simp only [printOperand_setFlag st b MI _ h,
    show printqwordmem (setFlag st b) = printqwordmem st from
      funext fun MI => funext fun op => printSizedMem_setFlag _ st b MI op h,
    show printdwordmem (setFlag st b) = printdwordmem st from
      funext fun MI => funext fun op => printSizedMem_setFlag _ st b MI op h,
    show printxmmwordmem (setFlag st b) = printxmmwordmem st from
      funext fun MI => funext fun op => printSizedMem_setFlag _ st b MI op h,
    show printymmwordmem (setFlag st b) = printymmwordmem st from
      funext fun MI => funext fun op => printSizedMem_setFlag _ st b MI op h,
    show printzmmwordmem (setFlag st b) = printzmmwordmem st from
      funext fun MI => funext fun op => printSizedMem_setFlag _ st b MI op h]

theorem printOperand_congr (st : PrinterState) (MI MI' : MCInst) (i i' : Nat)
    (h : MI'.getOperand i' = MI.getOperand i) :
    printOperand st MI' i' = printOperand st MI i := by
  unfold printOperand
  rw [h]

/-! Claim theorems. -/

/-- C5: for a general-form memory operand with an immediate displacement, the
displacement is printed exactly when it is nonzero or both the base and the
index register are absent; with everything absent the literal `0` is printed
(the `formatImm st 0` token below), and with only a base register the
displacement is omitted and only `(base)` is printed. -/
theorem claim_C5 (st : PrinterState) (MI : MCInst) (op : Nat) (b ir : Nat) (v : Int)
    (hb : MI.getOperand (op + addrBaseReg) = MCOperand.reg b)
    (hi : MI.getOperand (op + addrIndexReg) = MCOperand.reg ir)
    (hd : MI.getOperand (op + addrDisp) = MCOperand.imm v) :
    printMemReference st MI op = .ok (
      markup st "<mem:" ++ segToks st MI (op + addrSegReg)
      ++ (if v ≠ 0 ∨ (ir = 0 ∧ b = 0) then [formatImm st v] else [])
      ++ (if ir ≠ 0 ∨ b ≠ 0 then
            Tok.lit "(" :: ((if b ≠ 0 then printRegName st b else [])
              ++ (if ir ≠ 0 then
                    Tok.lit "," :: printRegName st ir
                      ++ (if (MI.getOperand (op + addrScaleAmt)).getImm % 2 ^ 32 ≠ 1 then
                            Tok.lit "," :: markup st "<imm:"
                              ++ [Tok.dec ((MI.getOperand (op + addrScaleAmt)).getImm % 2 ^ 32)]
                              ++ markup st ">"
                          else [])
                  else [])) ++ [Tok.lit ")"]
          else []) ++ markup st ">", []) := by
  rw [printMemReference_eq_ok st MI op (by rw [hd]; simp [MCOperand.isImm])]
  unfold memRefOut
  rw [hb, hi, hd]
  simp [MCOperand.getReg]

/-- C5 witness: base=none, index=none, disp=0 prints the literal `0`; and
base=%r9, index=none, disp=0 prints only `(base)`. -/
theorem claim_C5_w :
    printMemReference (PrinterState.mk false false false false)
        (MCInst.mk (Opcode.other 0)
          [MCOperand.reg 0, MCOperand.imm 1, MCOperand.reg 0, MCOperand.imm 0, MCOperand.reg 0])
        0 = .ok ([Tok.dec 0], [])
    ∧ printMemReference (PrinterState.mk false false false false)
        (MCInst.mk (Opcode.other 0)
          [MCOperand.reg 9, MCOperand.imm 1, MCOperand.reg 0, MCOperand.imm 0, MCOperand.reg 0])
        0 = .ok ([Tok.lit "(", Tok.lit "%", Tok.reg 9, Tok.lit ")"], []) := by
  constructor
  · have h := claim_C5 (PrinterState.mk false false false false)
      (MCInst.mk (Opcode.other 0)
        [MCOperand.reg 0, MCOperand.imm 1, MCOperand.reg 0, MCOperand.imm 0, MCOperand.reg 0])
      0 0 0 0 rfl rfl rfl
    simpa [markup, segToks, formatImm, MCInst.getOperand, MCOperand.getReg] using h
  · have h := claim_C5 (PrinterState.mk false false false false)
      (MCInst.mk (Opcode.other 0)
        [MCOperand.reg 9, MCOperand.imm 1, MCOperand.reg 0, MCOperand.imm 0, MCOperand.reg 0])
      0 9 0 0 rfl rfl rfl
    simpa [markup, segToks, formatImm, printRegName, MCInst.getOperand,
      MCOperand.getReg] using h

/-- C6: for a general-form memory operand with an index register present, the
scale factor is printed exactly when it is not 1, and it is rendered with the
plain-decimal token `Tok.dec` — never `formatImm`, which would produce a
`Tok.hex` token in hexadecimal format mode — regardless of the format mode in
`st`. -/
theorem claim_C6 (st : PrinterState) (MI : MCInst) (op : Nat) (b ir : Nat) (s v : Int)
    (hb : MI.getOperand (op + addrBaseReg) = MCOperand.reg b)
    (hi : MI.getOperand (op + addrIndexReg) = MCOperand.reg ir)
    (hir : ir ≠ 0)
    (hs : MI.getOperand (op + addrScaleAmt) = MCOperand.imm s)
    (hd : MI.getOperand (op + addrDisp) = MCOperand.imm v) :
    printMemReference st MI op = .ok (
      markup st "<mem:" ++ segToks st MI (op + addrSegReg)
      ++ (if v ≠ 0 then [formatImm st v] else [])
      ++ (Tok.lit "(" :: ((if b ≠ 0 then printRegName st b else [])
            ++ Tok.lit "," :: printRegName st ir
            ++ (if s % 2 ^ 32 ≠ 1 then
                  Tok.lit "," :: markup st "<imm:" ++ [Tok.dec (s % 2 ^ 32)] ++ markup st ">"
                else [])) ++ [Tok.lit ")"])
      ++ markup st ">", []) := by
  rw [printMemReference_eq_ok st MI op (by rw [hd]; simp [MCOperand.isImm])]
  unfold memRefOut
  rw [hb, hi, hd, hs]
  simp [MCOperand.getReg, MCOperand.getImm, hir]

/-- C6 witness: in hexadecimal format mode (the displacement 22 is rendered as
a `Tok.hex` token), a scale of 4 is still rendered as the plain-decimal token
`Tok.dec 4`, and a scale of 1 is not rendered at all. -/
theorem claim_C6_w :
    printMemReference (PrinterState.mk false false true false)
        (MCInst.mk (Opcode.other 0)
          [MCOperand.reg 7, MCOperand.imm 4, MCOperand.reg 8, MCOperand.imm 22, MCOperand.reg 0])
        0 = .ok ([Tok.hex 22, Tok.lit "(", Tok.lit "%", Tok.reg 7, Tok.lit ",",
                  Tok.lit "%", Tok.reg 8, Tok.lit ",", Tok.dec 4, Tok.lit ")"], [])
    ∧ printMemReference (PrinterState.mk false false true false)
        (MCInst.mk (Opcode.other 0)
          [MCOperand.reg 7, MCOperand.imm 1, MCOperand.reg 8, MCOperand.imm 22, MCOperand.reg 0])
        0 = .ok ([Tok.hex 22, Tok.lit "(", Tok.lit "%", Tok.reg 7, Tok.lit ",",
                  Tok.lit "%", Tok.reg 8, Tok.lit ")"], []) := by
  constructor
  · have h := claim_C6 (PrinterState.mk false false true false)
      (MCInst.mk (Opcode.other 0)
        [MCOperand.reg 7, MCOperand.imm 4, MCOperand.reg 8, MCOperand.imm 22, MCOperand.reg 0])
      0 7 8 4 22 rfl rfl (by decide) rfl rfl
    simpa [markup, segToks, formatImm, printRegName, MCInst.getOperand,
      MCOperand.getReg] using h
  · have h := claim_C6 (PrinterState.mk false false true false)
      (MCInst.mk (Opcode.other 0)
        [MCOperand.reg 7, MCOperand.imm 1, MCOperand.reg 8, MCOperand.imm 22, MCOperand.reg 0])
      0 7 8 1 22 rfl rfl (by decide) rfl rfl
    simpa [markup, segToks, formatImm, printRegName, MCInst.getOperand,
      MCOperand.getReg] using h

/-- C7: the 8-bit masked immediate formatter defers symbolic expressions to the
plain operand formatter unchanged, and masks an immediate to its low 8 bits
(`& 0xff`, i.e. mod 256) before formatting, so value 0x1FF = 511 is printed as
the value 0xFF = 255. -/
theorem claim_C7 (st : PrinterState) (MI : MCInst) (i : Nat) :
    ((MI.getOperand i).isExpr = true → printU8Imm st MI i = printOperand st MI i)
    ∧ (∀ v : Int, MI.getOperand i = MCOperand.imm v →
        printU8Imm st MI i =
          .ok (markup st "<imm:" ++ [Tok.lit "$", formatImm st (v % 256)]
                 ++ markup st ">", [])) := by
  constructor
  · intro h
    unfold printU8Imm
    rw [if_pos h]
  · intro v hv
    unfold printU8Imm
    rw [hv]
    simp [MCOperand.isExpr, MCOperand.getImm]

/-- C7 witness: immediate 0x1FF = 511 prints masked as 255, while an
expression operand goes through `printOperand` verbatim. -/
theorem claim_C7_w :
    printU8Imm (PrinterState.mk false false false false)
        (MCInst.mk (Opcode.other 0) [MCOperand.imm 511]) 0
      = .ok ([Tok.lit "$", Tok.dec 255], [])
    ∧ printU8Imm (PrinterState.mk false false false false)
        (MCInst.mk (Opcode.other 0) [MCOperand.expr "sym"]) 0
      = printOperand (PrinterState.mk false false false false)
          (MCInst.mk (Opcode.other 0) [MCOperand.expr "sym"]) 0 := by
  constructor
  · have h := (claim_C7 (PrinterState.mk false false false false)
      (MCInst.mk (Opcode.other 0) [MCOperand.imm 511]) 0).2 511 rfl
    simpa [markup, formatImm] using h
  · exact (claim_C7 (PrinterState.mk false false false false)
      (MCInst.mk (Opcode.other 0) [MCOperand.expr "sym"]) 0).1 rfl

/-- C8: the destination-index form always renders the fixed `%es:(...)` text
and reads only the base-like operand — any instruction agreeing on that one
operand (in particular one with a different segment sub-operand at `op + 1`)
prints identically — while the source-index form reads the optional real
segment sub-operand at the next operand index (printed with a colon exactly
when it names a nonzero register). -/
theorem claim_C8 (st : PrinterState) (MI MI' : MCInst) (op : Nat)
    (hok : MI.getOperand op ≠ MCOperand.invalid)
    (hsame : MI'.getOperand op = MI.getOperand op) :
    printDstIdx st MI op =
      .ok (markup st "<mem:" ++ (Tok.lit "%es:(" :: (opOut st MI op).1) ++ [Tok.lit ")"]
             ++ markup st ">", (opOut st MI op).2)
    ∧ printDstIdx st MI' op = printDstIdx st MI op
    ∧ printSrcIdx st MI op =
        .ok (markup st "<mem:"
               ++ (if (MI.getOperand (op + 1)).getReg ≠ 0 then
                     printRegName st (MI.getOperand (op + 1)).getReg ++ [Tok.lit ":"]
                   else [])
               ++ (Tok.lit "(" :: (opOut st MI op).1) ++ [Tok.lit ")"]
               ++ markup st ">", (opOut st MI op).2) := by
  refine ⟨?_, ?_, ?_⟩
  · unfold printDstIdx
    rw [printOperand_eq_ok st MI op hok]
    rfl
  · unfold printDstIdx
    rw [printOperand_congr st MI MI' op op hsame]
  · unfold printSrcIdx
    rw [printOperand_eq_ok st MI op hok]
    simp [segToks]

/-- C8 witness: with a real segment register in the segment sub-operand slot,
the destination-index form still prints `%es:` and ignores it (the output
equals that of an instruction with a different segment sub-operand), while the
source-index form prints that segment register and a colon. -/
theorem claim_C8_w :
    printDstIdx (PrinterState.mk false false false false)
        (MCInst.mk (Opcode.other 0) [MCOperand.reg 5, MCOperand.reg 3]) 0
      = .ok ([Tok.lit "%es:(", Tok.lit "%", Tok.reg 5, Tok.lit ")"], [])
    ∧ printDstIdx (PrinterState.mk false false false false)
        (MCInst.mk (Opcode.other 0) [MCOperand.reg 5, MCOperand.reg 4]) 0
      = printDstIdx (PrinterState.mk false false false false)
          (MCInst.mk (Opcode.other 0) [MCOperand.reg 5, MCOperand.reg 3]) 0
    ∧ printSrcIdx (PrinterState.mk false false false false)
        (MCInst.mk (Opcode.other 0) [MCOperand.reg 5, MCOperand.reg 3]) 0
      = .ok ([Tok.lit "%", Tok.reg 3, Tok.lit ":", Tok.lit "(", Tok.lit "%",
              Tok.reg 5, Tok.lit ")"], []) := by
  have h := claim_C8 (PrinterState.mk false false false false)
    (MCInst.mk (Opcode.other 0) [MCOperand.reg 5, MCOperand.reg 3])
    (MCInst.mk (Opcode.other 0) [MCOperand.reg 5, MCOperand.reg 4]) 0
    (by decide) rfl
  obtain ⟨h1, h2, h3⟩ := h
  refine ⟨?_, ?_, ?_⟩
  · simpa [markup, opOut, printRegName, MCInst.getOperand] using h1
  · exact h2
  · simpa [markup, opOut, printRegName, segToks, MCInst.getOperand,
      MCOperand.getReg] using h3

/-- C9: a contract violation aborts with the assertion's diagnostic (modelled
as `Except.error`): the plain operand formatter on an operand that is neither
register, immediate nor expression fails with the `printOperand` assertion
text, and a general-form memory reference whose displacement is neither
immediate nor expression fails with the LEA assertion text; neither is
silently coerced into output. -/
theorem claim_C9 (st : PrinterState) (MI : MCInst) (i op : Nat)
    (h1 : MI.getOperand i = MCOperand.invalid)
    (h2 : (MI.getOperand (op + addrDisp)).isImm = false ∧
          (MI.getOperand (op + addrDisp)).isExpr = false) :
    printOperand st MI i = .error "unknown operand kind in printOperand"
    ∧ printMemReference st MI op = .error "non-immediate displacement for LEA?" := by
  constructor
  · unfold printOperand
    rw [h1]
  · unfold printMemReference
    rcases hd : MI.getOperand (op + addrDisp) with r | v | e | _ <;>
      rw [hd] at h2 <;>
      simp_all [MCOperand.isImm, MCOperand.isExpr, bind, Except.bind]

/-- C9 witness: a floating-point-immediate-like operand (modelled `invalid`)
in the plain formatter, and a register in the displacement slot of a memory
reference, both abort with their diagnostics. -/
theorem claim_C9_w :
    printOperand (PrinterState.mk false false false false)
        (MCInst.mk (Opcode.other 0)
          [MCOperand.invalid, MCOperand.imm 1, MCOperand.reg 0, MCOperand.reg 2,
           MCOperand.reg 0]) 0
      = .error "unknown operand kind in printOperand"
    ∧ printMemReference (PrinterState.mk false false false false)
        (MCInst.mk (Opcode.other 0)
          [MCOperand.invalid, MCOperand.imm 1, MCOperand.reg 0, MCOperand.reg 2,
           MCOperand.reg 0]) 0
      = .error "non-immediate displacement for LEA?" :=
  claim_C9 (PrinterState.mk false false false false)
    (MCInst.mk (Opcode.other 0)
      [MCOperand.invalid, MCOperand.imm 1, MCOperand.reg 0, MCOperand.reg 2,
       MCOperand.reg 0]) 0 0 rfl (by decide)

/-- C4: the plain operand formatter emits a hex-annotation comment for an
immediate exactly when a comment sink is attached, no opcode-specific comment
was emitted for this instruction, and the value lies outside `[-256, 255]`;
the chosen width is the narrowest of 16/32/64 bits from which sign extension
reproduces the original 64-bit value, and the comment carries the value
truncated to that width.  (The code tests `Imm == (intN_t)Imm` — a sign-
extension round trip — and prints `(uintN_t)Imm`.) -/
theorem claim_C4 (st : PrinterState) (MI : MCInst) (i : Nat) (v : Int)
    (h : MI.getOperand i = MCOperand.imm v)
    (h64 : -(2 ^ 63) ≤ v ∧ v < 2 ^ 63) :
    ∃ t c, printOperand st MI i = .ok (t, c)
    ∧ (c ≠ [] ↔
        (st.hasCommentStream = true ∧ st.hasCustomInstComment = false ∧
          (v > 255 ∨ v < -256)))
    ∧ ((st.hasCommentStream = true ∧ st.hasCustomInstComment = false ∧
          (v > 255 ∨ v < -256)) →
        ∃ w, c = [Comment.immHex w (toUnsigned w v)]
          ∧ (w = 16 ∨ w = 32 ∨ w = 64) ∧ signExtend w v = v
          ∧ ∀ w', (w' = 16 ∨ w' = 32 ∨ w' = 64) → signExtend w' v = v → w ≤ w') := by
  refine ⟨markup st "<imm:" ++ [Tok.lit "$", formatImm st v] ++ markup st ">",
          immCmts st v, ?_, ?_, ?_⟩
  · unfold printOperand
    rw [h]
  · unfold immCmts
    by_cases hc : st.hasCommentStream = true ∧ st.hasCustomInstComment = false ∧
        (v > 255 ∨ v < -256)
    · rw [if_pos hc]
      split_ifs <;> simp [hc]
    · rw [if_neg hc]
      simp [hc]
  · intro hc
    unfold immCmts
    rw [if_pos hc]
    by_cases h16 : signExtend 16 v = v
    · rw [if_pos h16]
      exact ⟨16, rfl, by norm_num, h16, by rintro w' (rfl | rfl | rfl) _ <;> norm_num⟩
    · rw [if_neg h16]
      by_cases h32 : signExtend 32 v = v
      · rw [if_pos h32]
        refine ⟨32, rfl, by norm_num, h32, ?_⟩
        rintro w' (rfl | rfl | rfl) hw' <;> first | exact absurd hw' h16 | norm_num
      · rw [if_neg h32]
        refine ⟨64, rfl, by norm_num,
          (signExtend_eq_iff 64 v (by norm_num)).2 (by push_cast; omega), ?_⟩
        rintro w' (rfl | rfl | rfl) hw' <;>
          first | exact absurd hw' h16 | exact absurd hw' h32 | norm_num

/-- C4 witness: at immediate 300 with a comment sink attached and no custom
comment, the theorem instantiates (the chosen width is 16); the remaining
boundary examples 70000, 5000000000, 255 and -256 are checked directly. -/
theorem claim_C4_w :
    ((MCInst.mk (Opcode.other 0) [MCOperand.imm 300]).getOperand 0 = MCOperand.imm 300
    ∧ (∃ t c, printOperand (PrinterState.mk true false false false)
          (MCInst.mk (Opcode.other 0) [MCOperand.imm 300]) 0 = .ok (t, c)
        ∧ (c ≠ [] ↔ (true = true ∧ false = false ∧ ((300 : Int) > 255 ∨ (300 : Int) < -256)))
        ∧ ((true = true ∧ false = false ∧ ((300 : Int) > 255 ∨ (300 : Int) < -256)) →
            ∃ w, c = [Comment.immHex w (toUnsigned w 300)]
              ∧ (w = 16 ∨ w = 32 ∨ w = 64) ∧ signExtend w 300 = 300
              ∧ ∀ w', (w' = 16 ∨ w' = 32 ∨ w' = 64) → signExtend w' 300 = 300 → w ≤ w')))
    ∧ printOperand (PrinterState.mk true false false false)
        (MCInst.mk (Opcode.other 0) [MCOperand.imm 70000]) 0
      = .ok ([Tok.lit "$", Tok.dec 70000], [Comment.immHex 32 70000])
    ∧ printOperand (PrinterState.mk true false false false)
        (MCInst.mk (Opcode.other 0) [MCOperand.imm 5000000000]) 0
      = .ok ([Tok.lit "$", Tok.dec 5000000000], [Comment.immHex 64 5000000000])
    ∧ printOperand (PrinterState.mk true false false false)
        (MCInst.mk (Opcode.other 0) [MCOperand.imm 255]) 0
      = .ok ([Tok.lit "$", Tok.dec 255], [])
    ∧ printOperand (PrinterState.mk true false false false)
        (MCInst.mk (Opcode.other 0) [MCOperand.imm (-256)]) 0
      = .ok ([Tok.lit "$", Tok.dec (-256)], []) :=
  ⟨⟨rfl, claim_C4 (PrinterState.mk true false false false)
      (MCInst.mk (Opcode.other 0) [MCOperand.imm 300]) 0 300 rfl (by decide)⟩,
   rfl, rfl, rfl, rfl⟩


/-- C1: for a handled Family B instruction (trailing immediate in the legal
range), the operand cursor starts at index 3 when the descriptor's EVEX_K mask
flag is set and at 2 otherwise, decrements after each printed operand (the
source prints at the cursor, the second operand one below it, then operand 0),
and a trailing brace-wrapped mask operand is printed after the three
positional operands exactly when the cursor still has an unconsumed index —
which happens exactly when EVEX_K is set. -/
theorem claim_C1 (st : PrinterState) (MII : Opcode → MCInstrDesc) (MI : MCInst)
    (j : Fin 120) (v : Int)
    (hop : MI.opcode = Opcode.vpcmpVariant j)
    (hne : MI.operands ≠ [])
    (hlast : MI.getOperand (MI.getNumOperands - 1) = MCOperand.imm v)
    (hleg : (0 ≤ v ∧ v ≤ 2) ∨ (4 ≤ v ∧ v ≤ 6))
    (hargs : vpcmpArgsOk (MII MI.opcode) MI) :
    ∃ srcT cmts,
      printVecCompareInstr st MII MI = .ok (some (
        (Tok.lit "\t" :: Tok.mnemVPCMP v :: srcT)
          ++ (Tok.lit ", "
                :: (opOut st MI ((if (MII MI.opcode).evex_K = true then 3 else 2) - 1)).1)
          ++ (Tok.lit ", " :: (opOut st MI 0).1)
          ++ (if 0 < (if (MII MI.opcode).evex_K = true then 3 else 2) - 1 - 1 then
                Tok.lit " \x7b"
                  :: (opOut st MI
                        ((if (MII MI.opcode).evex_K = true then 3 else 2) - 1 - 1)).1
                  ++ [Tok.lit "\x7d"]
              else []), cmts))
      ∧ ((0 < (if (MII MI.opcode).evex_K = true then 3 else 2) - 1 - 1) ↔
          (MII MI.opcode).evex_K = true) := by
  have h := vpcmp_shape st MII MI j v hop hne hlast hleg hargs
  refine ⟨(vpcmpSrcOut st (MII MI.opcode) MI).1,
          (vpcmpOut st (MII MI.opcode) MI v).2, ?_, ?_⟩
  · rw [h]
    unfold vpcmpOut
    rcases hK : (MII MI.opcode).evex_K <;> simp [hK]
  · rcases hK : (MII MI.opcode).evex_K <;> simp [hK]

/-- C1 witness: a masked register-form Family B instruction with trailing
immediate 5; the cursor starts at 3, so the source is operand 3, the second
operand is 2, and the mask operand 1 is printed in braces. -/
theorem claim_C1_w :
    ∃ srcT cmts,
      printVecCompareInstr (PrinterState.mk false false false false)
          (fun _ => MCInstrDesc.mk false true false false false false)
          (MCInst.mk (Opcode.vpcmpVariant 0)
            [MCOperand.reg 1, MCOperand.reg 2, MCOperand.reg 3, MCOperand.reg 4,
             MCOperand.imm 5])
        = .ok (some (
          (Tok.lit "\t" :: Tok.mnemVPCMP 5 :: srcT)
            ++ (Tok.lit ", "
                  :: (opOut (PrinterState.mk false false false false)
                        (MCInst.mk (Opcode.vpcmpVariant 0)
                          [MCOperand.reg 1, MCOperand.reg 2, MCOperand.reg 3,
                           MCOperand.reg 4, MCOperand.imm 5])
                        ((if ((fun (_ : Opcode) => MCInstrDesc.mk false true false false false false)
                                (Opcode.vpcmpVariant 0)).evex_K = true then 3 else 2) - 1)).1)
            ++ (Tok.lit ", "
                  :: (opOut (PrinterState.mk false false false false)
                        (MCInst.mk (Opcode.vpcmpVariant 0)
                          [MCOperand.reg 1, MCOperand.reg 2, MCOperand.reg 3,
                           MCOperand.reg 4, MCOperand.imm 5]) 0).1)
            ++ (if 0 < (if ((fun (_ : Opcode) => MCInstrDesc.mk false true false false false false)
                              (Opcode.vpcmpVariant 0)).evex_K = true then 3 else 2) - 1 - 1 then
                  Tok.lit " \x7b"
                    :: (opOut (PrinterState.mk false false false false)
                          (MCInst.mk (Opcode.vpcmpVariant 0)
                            [MCOperand.reg 1, MCOperand.reg 2, MCOperand.reg 3,
                             MCOperand.reg 4, MCOperand.imm 5])
                          ((if ((fun (_ : Opcode) => MCInstrDesc.mk false true false false false false)
                                  (Opcode.vpcmpVariant 0)).evex_K = true then 3 else 2) - 1 - 1)).1
                    ++ [Tok.lit "\x7d"]
                else []), cmts))
      ∧ ((0 < (if ((fun (_ : Opcode) => MCInstrDesc.mk false true false false false false)
                      (Opcode.vpcmpVariant 0)).evex_K = true then 3 else 2) - 1 - 1) ↔
          ((fun (_ : Opcode) => MCInstrDesc.mk false true false false false false)
              (Opcode.vpcmpVariant 0)).evex_K = true) :=
  claim_C1 (PrinterState.mk false false false false)
    (fun _ => MCInstrDesc.mk false true false false false false)
    (MCInst.mk (Opcode.vpcmpVariant 0)
      [MCOperand.reg 1, MCOperand.reg 2, MCOperand.reg 3, MCOperand.reg 4,
       MCOperand.imm 5])
    0 5 rfl (by decide) rfl (by decide)
    (by unfold vpcmpArgsOk
        refine ⟨by decide, by decide, by decide, fun _ => by decide⟩)

/-- C3 counterexample: a broadcast-form Family B instruction with the W bit
set prints its scalar element size as quadword — neither the word size nor the
doubleword size that the claim offers as the two possible element sizes. -/
theorem claim_C3_cex :
    ∃ out, printVecCompareInstr (PrinterState.mk false false false false)
        (fun _ => MCInstrDesc.mk true false true false false true)
        (MCInst.mk (Opcode.vpcmpVariant 0)
          [MCOperand.reg 1, MCOperand.reg 2, MCOperand.reg 3, MCOperand.imm 1,
           MCOperand.reg 0, MCOperand.imm 0, MCOperand.reg 0, MCOperand.imm 5])
      = .ok (some out)
    ∧ Tok.sizeTag MemSize.word ∉ out.1
    ∧ Tok.sizeTag MemSize.dword ∉ out.1
    ∧ Tok.sizeTag MemSize.qword ∈ out.1 := by
  refine ⟨_, rfl, by decide, by decide, by decide⟩

/-- C3 amended: as C3, but the scalar element size chosen by the W flag is
quadword (W set) or doubleword (W clear) — not word or doubleword; the
`{1to<N>}` count table over (W, L, L2) is exactly as the claim states, with N
always in {2, 4, 8, 16}. -/
theorem claim_C3_amended (st : PrinterState) (MII : Opcode → MCInstrDesc) (MI : MCInst)
    (j : Fin 120) (v : Int)
    (hop : MI.opcode = Opcode.vpcmpVariant j)
    (hne : MI.operands ≠ [])
    (hlast : MI.getOperand (MI.getNumOperands - 1) = MCOperand.imm v)
    (hleg : (0 ≤ v ∧ v ≤ 2) ∨ (4 ≤ v ∧ v ≤ 6))
    (hargs : vpcmpArgsOk (MII MI.opcode) MI)
    (hmem : (MII MI.opcode).formMemSrc = true)
    (hbc : (MII MI.opcode).evex_B = true) :
    ∃ N rest cmts,
      printVecCompareInstr st MII MI = .ok (some (
        (Tok.lit "\t" :: Tok.mnemVPCMP v ::
          (Tok.sizeTag (if (MII MI.opcode).vex_W = true then MemSize.qword
                        else MemSize.dword)
            :: (memRefOut st MI (if (MII MI.opcode).evex_K = true then 3 else 2)).1
            ++ [Tok.lit "\x7b1to", Tok.dec N, Tok.lit "\x7d"]))
          ++ rest, cmts))
      ∧ (N = 2 ∨ N = 4 ∨ N = 8 ∨ N = 16)
      ∧ ((MII MI.opcode).evex_L2 = true → (MII MI.opcode).vex_W = true → N = 8)
      ∧ ((MII MI.opcode).evex_L2 = true → (MII MI.opcode).vex_W = false → N = 16)
      ∧ ((MII MI.opcode).evex_L2 = false → (MII MI.opcode).vex_L = true →
          (MII MI.opcode).vex_W = true → N = 4)
      ∧ ((MII MI.opcode).evex_L2 = false → (MII MI.opcode).vex_L = true →
          (MII MI.opcode).vex_W = false → N = 8)
      ∧ ((MII MI.opcode).evex_L2 = false → (MII MI.opcode).vex_L = false →
          (MII MI.opcode).vex_W = true → N = 2)
      ∧ ((MII MI.opcode).evex_L2 = false → (MII MI.opcode).vex_L = false →
          (MII MI.opcode).vex_W = false → N = 4) := by
  have h := vpcmp_shape st MII MI j v hop hne hlast hleg hargs
  refine ⟨(if (MII MI.opcode).evex_L2 = true then
             (if (MII MI.opcode).vex_W = true then 8 else 16)
           else if (MII MI.opcode).vex_L = true then
             (if (MII MI.opcode).vex_W = true then 4 else 8)
           else (if (MII MI.opcode).vex_W = true then 2 else 4)),
          (Tok.lit ", "
              :: (opOut st MI ((if (MII MI.opcode).evex_K = true then 3 else 2) - 1)).1)
            ++ (Tok.lit ", " :: (opOut st MI 0).1)
            ++ (if 0 < (if (MII MI.opcode).evex_K = true then 3 else 2) - 1 - 1 then
                  Tok.lit " \x7b"
                    :: (opOut st MI
                          ((if (MII MI.opcode).evex_K = true then 3 else 2) - 1 - 1)).1
                    ++ [Tok.lit "\x7d"]
                else []),
          (vpcmpOut st (MII MI.opcode) MI v).2, ?_, ?_, ?_, ?_, ?_, ?_, ?_, ?_⟩
  · rw [h]
    unfold vpcmpOut vpcmpSrcOut
    rw [hmem, hbc]
    rcases hK : (MII MI.opcode).evex_K <;> simp [hK]
  · split_ifs <;> norm_num
  · intro hL2 hW
    simp [hL2, hW]
  · intro hL2 hW
    simp [hL2, hW]
  · intro hL2 hL hW
    simp [hL2, hL, hW]
  · intro hL2 hL hW
    simp [hL2, hL, hW]
  · intro hL2 hL hW
    simp [hL2, hL, hW]
  · intro hL2 hL hW
    simp [hL2, hL, hW]


/-- C2: each polymorphic-mnemonic family resolver handles an instruction of
its family exactly when the trailing operand is an immediate in the family's
legal range (0..7 for Family A; 0..2 or 4..6 for Family B); outside that range
it returns not-handled, and the caller then prints via the generic per-opcode
template (with no error). -/
theorem claim_C2 (st : PrinterState) (MII : Opcode → MCInstrDesc)
    (emitC : MCInst → Bool × List Comment) (instFlagsT : MCInst → List Tok)
    (aliasP : MCInst → Option (List Tok)) (genericP : MCInst → List Tok)
    (MI : MCInst) (annotStr : String) (m64 m16 : Bool) :
    ((∃ i, MI.opcode = Opcode.vpcomVariant i) →
      (∀ v : Int, MI.getOperand (MI.getNumOperands - 1) = MCOperand.imm v →
        ¬(0 ≤ v ∧ v ≤ 7)) →
      printVecCompareInstr st MII MI = .ok none)
    ∧ ((∃ i, MI.opcode = Opcode.vpcomVariant i) → MI.operands ≠ [] →
      ∀ v : Int, MI.getOperand (MI.getNumOperands - 1) = MCOperand.imm v →
      (0 ≤ v ∧ v ≤ 7) → vpcomArgsOk (MII MI.opcode) MI →
      ∃ o, printVecCompareInstr st MII MI = .ok (some o))
    ∧ ((∃ jj, MI.opcode = Opcode.vpcmpVariant jj) →
      (∀ v : Int, MI.getOperand (MI.getNumOperands - 1) = MCOperand.imm v →
        ¬((0 ≤ v ∧ v ≤ 2) ∨ (4 ≤ v ∧ v ≤ 6))) →
      printVecCompareInstr st MII MI = .ok none)
    ∧ ((∃ jj, MI.opcode = Opcode.vpcmpVariant jj) → MI.operands ≠ [] →
      ∀ v : Int, MI.getOperand (MI.getNumOperands - 1) = MCOperand.imm v →
      ((0 ≤ v ∧ v ≤ 2) ∨ (4 ≤ v ∧ v ≤ 6)) → vpcmpArgsOk (MII MI.opcode) MI →
      ∃ o, printVecCompareInstr st MII MI = .ok (some o))
    ∧ ((((∃ i, MI.opcode = Opcode.vpcomVariant i) ∧
          (∀ v : Int, MI.getOperand (MI.getNumOperands - 1) = MCOperand.imm v →
            ¬(0 ≤ v ∧ v ≤ 7)))
        ∨ ((∃ jj, MI.opcode = Opcode.vpcmpVariant jj) ∧
          (∀ v : Int, MI.getOperand (MI.getNumOperands - 1) = MCOperand.imm v →
            ¬((0 ≤ v ∧ v ≤ 2) ∨ (4 ≤ v ∧ v ≤ 6))))) →
      aliasP MI = none →
      printInst st MII emitC instFlagsT aliasP genericP MI annotStr m64 m16 =
        .ok ⟨instFlagsT MI ++ genericP MI ++ annotToks annotStr,
             (if st.hasCommentStream then emitC MI else (st.hasCustomInstComment, [])).2,
             { st with hasCustomInstComment :=
                (if st.hasCommentStream then emitC MI
                 else (st.hasCustomInstComment, [])).1 }⟩) := by
  refine ⟨?_, ?_, ?_, ?_, ?_⟩
  · rintro ⟨i, hop⟩ h
    exact vpcom_not_handled st MII MI i hop h
  · rintro ⟨i, hop⟩ hne v hlast hleg hargs
    exact vpcom_handled st MII MI i v hop hne hlast hleg hargs
  · rintro ⟨jj, hop⟩ h
    exact vpcmp_not_handled st MII MI jj hop h
  · rintro ⟨jj, hop⟩ hne v hlast hleg hargs
    exact ⟨_, vpcmp_shape st MII MI jj v hop hne hlast hleg hargs⟩
  · rintro (⟨⟨i, hop⟩, h⟩ | ⟨⟨jj, hop⟩, h⟩) halias <;>
      [have hnone := fun st' => vpcom_not_handled st' MII MI i hop h;
       have hnone := fun st' => vpcmp_not_handled st' MII MI jj hop h] <;>
      unfold printInst <;>
      simp [hop, halias, hnone]

/-- C2 witness: a Family A instruction with out-of-range trailing immediate 8
is declined by the resolver and, with no matching alias, the caller prints it
through the generic template and returns successfully; a Family B instruction
with legal immediate 5 is handled by the resolver. -/
theorem claim_C2_w :
    printVecCompareInstr (PrinterState.mk false false false false)
        (fun _ => MCInstrDesc.mk false false false false false false)
        (MCInst.mk (Opcode.vpcomVariant 0)
          [MCOperand.reg 1, MCOperand.reg 2, MCOperand.reg 3, MCOperand.imm 8])
      = .ok none
    ∧ printInst (PrinterState.mk false false false false)
        (fun _ => MCInstrDesc.mk false false false false false false)
        (fun _ => (false, [])) (fun _ => [Tok.lit "flags"]) (fun _ => none)
        (fun _ => [Tok.lit "generic"])
        (MCInst.mk (Opcode.vpcomVariant 0)
          [MCOperand.reg 1, MCOperand.reg 2, MCOperand.reg 3, MCOperand.imm 8])
        "" false false
      = .ok ⟨[Tok.lit "flags", Tok.lit "generic", Tok.annot ""], [],
             PrinterState.mk false false false false⟩
    ∧ (∃ o, printVecCompareInstr (PrinterState.mk false false false false)
        (fun _ => MCInstrDesc.mk false true false false false false)
        (MCInst.mk (Opcode.vpcmpVariant 0)
          [MCOperand.reg 1, MCOperand.reg 2, MCOperand.reg 3, MCOperand.reg 4,
           MCOperand.imm 5])
      = .ok (some o)) := by
  refine ⟨?_, ?_, ?_⟩
  · exact (claim_C2 (PrinterState.mk false false false false)
      (fun _ => MCInstrDesc.mk false false false false false false)
      (fun _ => (false, [])) (fun _ => []) (fun _ => none) (fun _ => [])
      (MCInst.mk (Opcode.vpcomVariant 0)
        [MCOperand.reg 1, MCOperand.reg 2, MCOperand.reg 3, MCOperand.imm 8])
      "" false false).1 ⟨0, rfl⟩
      (by intro v hv
          simp [MCInst.getOperand, MCInst.getNumOperands, List.getD] at hv
          omega)
  · have h := (claim_C2 (PrinterState.mk false false false false)
      (fun _ => MCInstrDesc.mk false false false false false false)
      (fun _ => (false, [])) (fun _ => [Tok.lit "flags"]) (fun _ => none)
      (fun _ => [Tok.lit "generic"])
      (MCInst.mk (Opcode.vpcomVariant 0)
        [MCOperand.reg 1, MCOperand.reg 2, MCOperand.reg 3, MCOperand.imm 8])
      "" false false).2.2.2.2
      (Or.inl ⟨⟨0, rfl⟩, by
        intro v hv
        simp [MCInst.getOperand, MCInst.getNumOperands, List.getD] at hv
        omega⟩) rfl
    simpa [annotToks] using h
  · exact (claim_C2 (PrinterState.mk false false false false)
      (fun _ => MCInstrDesc.mk false true false false false false)
      (fun _ => (false, [])) (fun _ => []) (fun _ => none) (fun _ => [])
      (MCInst.mk (Opcode.vpcmpVariant 0)
        [MCOperand.reg 1, MCOperand.reg 2, MCOperand.reg 3, MCOperand.reg 4,
         MCOperand.imm 5])
      "" false false).2.2.2.1 ⟨0, rfl⟩ (by decide) 5 rfl (by decide)
      (by unfold vpcmpArgsOk
          refine ⟨by decide, by decide, by decide, fun _ => by decide⟩)

theorem setFlag_hasCommentStream (st : PrinterState) (b : Bool) :
    (setFlag st b).hasCommentStream = st.hasCommentStream := rfl

theorem setFlag_flag (st : PrinterState) (b : Bool) :
    (setFlag st b).hasCustomInstComment = b := rfl

theorem setFlag_printImmHex (st : PrinterState) (b : Bool) :
    (setFlag st b).printImmHex = st.printImmHex := rfl

theorem setFlag_useMarkup (st : PrinterState) (b : Bool) :
    (setFlag st b).useMarkup = st.useMarkup := rfl

theorem setFlag_update (st : PrinterState) (b x : Bool) :
    { setFlag st b with hasCustomInstComment := x } =
      { st with hasCustomInstComment := x } := rfl

/-- C10 counterexample: with no comment sink attached, the
`HasCustomInstComment` flag is not reset at the start of the call — two calls
identical except for the incoming flag value finish with different (their
respective incoming) flag values, so that piece of mutable printer state
survives the call. -/
theorem claim_C10_cex :
    printInst (PrinterState.mk false true false false)
        (fun _ => MCInstrDesc.mk false false false false false false)
        (fun _ => (false, [])) (fun _ => []) (fun _ => none) (fun _ => [])
        (MCInst.mk (Opcode.other 0) []) "" false false
      = .ok ⟨[Tok.annot ""], [], PrinterState.mk false true false false⟩
    ∧ printInst (PrinterState.mk false false false false)
        (fun _ => MCInstrDesc.mk false false false false false false)
        (fun _ => (false, [])) (fun _ => []) (fun _ => none) (fun _ => [])
        (MCInst.mk (Opcode.other 0) []) "" false false
      = .ok ⟨[Tok.annot ""], [], PrinterState.mk false false false false⟩
    ∧ (PrinterState.mk false true false false).hasCustomInstComment ≠
        (PrinterState.mk false false false false).hasCustomInstComment
    ∧ PrinterState.mk false true false false =
        setFlag (PrinterState.mk false false false false) true :=
  ⟨rfl, rfl, by decide, rfl⟩

/-- C10 amended: the flag is overwritten at the start of the call whenever a
comment sink is attached; when none is attached it is never read, so the
observable output of a call (text and comment lines) never depends on the
incoming flag value, and with a sink attached the final flag is freshly
computed from this call's instruction alone. -/
theorem claim_C10_amended (st : PrinterState) (b : Bool)
    (MII : Opcode → MCInstrDesc) (emitC : MCInst → Bool × List Comment)
    (instFlagsT : MCInst → List Tok) (aliasP : MCInst → Option (List Tok))
    (genericP : MCInst → List Tok) (MI : MCInst) (annotStr : String)
    (m64 m16 : Bool) :
    ((printInst (setFlag st b) MII emitC instFlagsT aliasP genericP MI annotStr
        m64 m16).map (fun o => (o.toks, o.cmts))
      = (printInst st MII emitC instFlagsT aliasP genericP MI annotStr
          m64 m16).map (fun o => (o.toks, o.cmts)))
    ∧ (st.hasCommentStream = true →
        ∀ o, printInst st MII emitC instFlagsT aliasP genericP MI annotStr
            m64 m16 = .ok o →
          o.finalState.hasCustomInstComment = (emitC MI).1) := by
  constructor
  · rcases hCS : st.hasCommentStream
    · unfold printInst
      simp only [setFlag_hasCommentStream, setFlag_flag, setFlag_printImmHex,
        setFlag_useMarkup, hCS, Bool.false_eq_true, if_false, reduceIte]
      have hvec : printVecCompareInstr
            (PrinterState.mk false b st.printImmHex st.useMarkup) MII MI
          = printVecCompareInstr
              (PrinterState.mk false st.hasCustomInstComment st.printImmHex
                st.useMarkup) MII MI :=
        printVecCompareInstr_setFlag
          (PrinterState.mk false st.hasCustomInstComment st.printImmHex st.useMarkup)
          b MII MI rfl
      rw [hvec]
      split_ifs
      · simp [Except.map]
      · simp [Except.map]
      · rcases halias : aliasP MI with _ | t
        · rcases hv2 : printVecCompareInstr
              (PrinterState.mk false st.hasCustomInstComment st.printImmHex
                st.useMarkup) MII MI with e | oo
          · simp [halias, hv2, Except.map]
          · rcases oo with _ | o <;> simp [halias, hv2, Except.map]
        · simp [halias, Except.map]
    · unfold printInst
      simp only [setFlag_hasCommentStream, setFlag_flag, setFlag_printImmHex,
        setFlag_useMarkup, hCS, if_true, reduceIte]
  · intro hCS o ho
    unfold printInst at ho
    rw [hCS] at ho
    simp only [reduceIte, if_true] at ho
    split_ifs at ho
    · cases ho
      rfl
    · cases ho
      rfl
    · split at ho
      · cases ho
        rfl
      · split at ho
        · simp at ho
        · cases ho
          rfl
        · cases ho
          rfl

/-- C10 amended witness: with a comment sink attached and an instruction
comment generator that reports a custom comment, the call's output is
independent of the incoming flag, and the final flag equals the generator's
report. -/
theorem claim_C10_amended_w :
    ((printInst (setFlag (PrinterState.mk true false false false) true)
        (fun _ => MCInstrDesc.mk false false false false false false)
        (fun _ => (true, [Comment.custom 7])) (fun _ => []) (fun _ => none)
        (fun _ => []) (MCInst.mk (Opcode.other 0) []) "" false false).map
          (fun o => (o.toks, o.cmts))
      = (printInst (PrinterState.mk true false false false)
          (fun _ => MCInstrDesc.mk false false false false false false)
          (fun _ => (true, [Comment.custom 7])) (fun _ => []) (fun _ => none)
          (fun _ => []) (MCInst.mk (Opcode.other 0) []) "" false false).map
            (fun o => (o.toks, o.cmts)))
    ∧ ((PrinterState.mk true false false false).hasCommentStream = true →
        ∀ o, printInst (PrinterState.mk true false false false)
            (fun _ => MCInstrDesc.mk false false false false false false)
            (fun _ => (true, [Comment.custom 7])) (fun _ => []) (fun _ => none)
            (fun _ => []) (MCInst.mk (Opcode.other 0) []) "" false false = .ok o →
          o.finalState.hasCustomInstComment =
            ((fun (_ : MCInst) => (true, [Comment.custom 7]))
              (MCInst.mk (Opcode.other 0) [])).1) :=
  claim_C10_amended (PrinterState.mk true false false false) true
    (fun _ => MCInstrDesc.mk false false false false false false)
    (fun _ => (true, [Comment.custom 7])) (fun _ => []) (fun _ => none)
    (fun _ => []) (MCInst.mk (Opcode.other 0) []) "" false false


/-- C3 amended witness: a 128-bit broadcast compare with W set prints the
quadword size tag and a broadcast count of N = 2. -/
theorem claim_C3_amended_w :
    ∃ N rest cmts,
      printVecCompareInstr (PrinterState.mk false false false false)
          (fun _ => MCInstrDesc.mk true false true false false true)
          (MCInst.mk (Opcode.vpcmpVariant 0)
            [MCOperand.reg 1, MCOperand.reg 2, MCOperand.reg 3, MCOperand.imm 1,
             MCOperand.reg 0, MCOperand.imm 0, MCOperand.reg 0, MCOperand.imm 5])
        = .ok (some (
          (Tok.lit "\t" :: Tok.mnemVPCMP 5 ::
            (Tok.sizeTag MemSize.qword
              :: (memRefOut (PrinterState.mk false false false false)
                    (MCInst.mk (Opcode.vpcmpVariant 0)
                      [MCOperand.reg 1, MCOperand.reg 2, MCOperand.reg 3,
                       MCOperand.imm 1, MCOperand.reg 0, MCOperand.imm 0,
                       MCOperand.reg 0, MCOperand.imm 5]) 2).1
              ++ [Tok.lit "\x7b1to", Tok.dec N, Tok.lit "\x7d"]))
            ++ rest, cmts))
      ∧ N = 2 := by
  obtain ⟨N, rest, cmts, heq, hm4, i1, i2, i3, i4, i5, i6⟩ :=
    claim_C3_amended (PrinterState.mk false false false false)
      (fun _ => MCInstrDesc.mk true false true false false true)
      (MCInst.mk (Opcode.vpcmpVariant 0)
        [MCOperand.reg 1, MCOperand.reg 2, MCOperand.reg 3, MCOperand.imm 1,
         MCOperand.reg 0, MCOperand.imm 0, MCOperand.reg 0, MCOperand.imm 5])
      0 5 rfl (by decide) rfl (by decide)
      (by unfold vpcmpArgsOk
          exact ⟨Or.inl (by decide), by decide, by decide,
                 fun h => absurd h (by decide)⟩)
      rfl rfl
  exact ⟨N, rest, cmts, heq, i5 rfl rfl rfl⟩

end X86ATT
